import Mathlib

/-!
Verification of the CityJSON building-geometry core shared by `merge3d.py`
(spatial linking of OSM points to buildings) and `bld2mesh.py` (mesh export):
boundary-tree vertex compaction, semantic-surface resolution, ground-footprint
extraction, nearest-building linking under a distance threshold, and fan
triangulation.

Modelling conventions:
* Python's arbitrary-depth "integer or list" JSON trees are embedded as
  first-order trees: a JSON array `[a, b, ...]` is the cell chain
  `cons a (cons b ... nil)`; an integer is a `leaf`.  Recursive functions over
  that encoding mirror the `isinstance(x, int) / isinstance(x, list)` dispatch
  of the source.
* Fallible Python code (uncaught `IndexError`, explicit `error(...)` calls) is
  embedded in `Except String`; a caught exception is an ordinary value.
* Geometric distances computed by shapely (point to polygon boundary/interior)
  are abstracted as an explicit distance function `dist : OsmPoint → Bldg → ℚ`
  supplied to the linker model; the selection logic (minimum, threshold,
  tie handling, per-tile grouping, final overwrite) is embedded from the source.
* `DataFrame.sort_index` is modelled as a stable bucket sort by point index;
  `groupby("path")` sorts group keys, modelled by sorting tiles with Python's
  code-point string order.
-/

namespace OsmCity

/-- Decidable equality of `Except` results, used to evaluate concrete runs of
the fallible embedded functions. -/
instance {ε α : Type} [DecidableEq ε] [DecidableEq α] : DecidableEq (Except ε α) := fun x y =>
  match x, y with
  | .ok a, .ok b =>
    if h : a = b then isTrue (by rw [h]) else isFalse (by intro he; cases he; exact h rfl)
  | .error a, .error b =>
    if h : a = b then isTrue (by rw [h]) else isFalse (by intro he; cases he; exact h rfl)
  | .ok _, .error _ => isFalse (by intro he; cases he)
  | .error _, .ok _ => isFalse (by intro he; cases he)

/-- Arbitrary-depth integer-or-list boundary tree of a CityJSON geometry
(the `boundaries` value walked by `collect_indices` / `remap_boundaries` in
`merge3d.py`).  A JSON array `[a, b, ...]` is `cons a (cons b ... nil)`;
an integer leaf is a global vertex index. -/
inductive BTree where
  | leaf : Nat → BTree
  | nil : BTree
  | cons : BTree → BTree → BTree
deriving Repr, DecidableEq

/-- `collect_indices` of `merge3d.make_single_building_cityjson`: recursively
collect every integer leaf of a boundaries tree (here as a list; the Python
set-of-ints is recovered by `List.dedup` at the use site). -/
def collect_indices : BTree → List Nat
  | .leaf n => [n]
  | .nil => []
  | .cons hd tl => collect_indices hd ++ collect_indices tl

/-- `remap_boundaries` of `merge3d.make_single_building_cityjson`: replace every
integer leaf by its image under the index map, preserving the tree shape. -/
def remap_boundaries (m : Nat → Nat) : BTree → BTree
  | .leaf n => .leaf (m n)
  | .nil => .nil
  | .cons hd tl => .cons (remap_boundaries m hd) (remap_boundaries m tl)

/-- `sorted_idx = sorted(used_indices)` of `merge3d.py`: the distinct referenced
global vertex indices of the geometry trees, in ascending order. -/
def used_sorted (trees : List BTree) : List Nat :=
  List.insertionSort (· ≤ ·) (trees.flatMap collect_indices).dedup

/-- `index_map = {old: i for i, old in enumerate(sorted_idx)}` of `merge3d.py`:
position of a global index in the sorted used-index list.  (The Python dict
raises `KeyError` on a missing key; the dict is only ever consulted at leaves
that were collected, where both agree.) -/
def index_map (sortedIdx : List Nat) (old : Nat) : Nat :=
  sortedIdx.indexOf old

/-- Shape erasure of a boundaries tree: branching structure and leaf positions
with the leaf values forgotten.  Two trees have the same nesting shape iff
their erasures are equal. -/
def shape_of (t : BTree) : BTree :=
  remap_boundaries (fun _ => 0) t

/-- Vertex compaction steps 1-2 of `merge3d.make_single_building_cityjson`
(lines 193-225): collect the referenced global indices of the building's
geometry trees; if the set is empty, keep an empty vertex array and an empty
index map (the source comment: "building without geometry: still build CityJSON
but with empty vertices"); otherwise gather the vertex rows at the sorted used
indices and remap every boundaries tree through the compact index space. -/
def compact {V : Type} [Inhabited V] (full_vertices : List V) (trees : List BTree) :
    List V × List BTree :=
  let used := (trees.flatMap collect_indices).dedup
  if used.isEmpty then
    ([], trees.map (remap_boundaries (index_map [])))
  else
    let sorted_idx := List.insertionSort (· ≤ ·) used
    (sorted_idx.map (fun i => full_vertices.getD i default),
     trees.map (remap_boundaries (index_map sorted_idx)))

/-- `merge3d.make_single_building_cityjson`: extract a self-contained document
for one building: `none` when the building id is absent from `CityObjects`,
otherwise the compacted vertex array and the remapped geometry trees. -/
def make_single_building_cityjson {V : Type} [Inhabited V] (full_vertices : List V)
    (cityobjects : List (String × List BTree)) (bldg_id : String) :
    Option (List V × List BTree) :=
  match cityobjects.lookup bldg_id with
  | none => none
  | some trees => some (compact full_vertices trees)

/-- `used_global_indices` of `bld2mesh.py` (line 220): the sorted set of global
vertex indices referenced by the collected polygon rings. -/
def used_global_indices (rings : List (List Nat)) : List Nat :=
  List.insertionSort (· ≤ ·) (rings.flatMap id).dedup

/-- The vertex-compaction step of `bld2mesh.py` (lines 220-231): unlike
`merge3d.py`, it fails (`error("No vertex indices referenced by polygons.")`)
when the collected index set is empty; otherwise it slices the global vertex
array at the used indices.  The second component is the sorted used-index list
from which `global_to_local` is built. -/
def bld2mesh_compact {V : Type} [Inhabited V] (vertices_global : List V)
    (rings : List (List Nat)) : Except String (List V × List Nat) :=
  let used := used_global_indices rings
  if used.isEmpty then .error "No vertex indices referenced by polygons."
  else .ok (used.map (fun i => vertices_global.getD i default), used)

/-- JSON value universe of a geometry's `semantics.values` tree as consumed by
`bld2mesh.get_sem_type`: null, integer, or array (`acons x (acons y ... anil)`
encodes `[x, y, ...]`). -/
inductive JVal where
  | jnull : JVal
  | jint : Int → JVal
  | anil : JVal
  | acons : JVal → JVal → JVal
deriving Repr, DecidableEq

/-- Length of a JSON array chain (`len(v)`); zero on non-arrays. -/
def jlen : JVal → Nat
  | .acons _ tl => jlen tl + 1
  | _ => 0

/-- Zero-based element access in a JSON array chain. -/
def jget : JVal → Nat → Option JVal
  | .acons hd _, 0 => some hd
  | .acons _ tl, n + 1 => jget tl n
  | _, _ => none

/-- Python list indexing `v[i]` on an array chain: non-negative indices from the
front, negative indices from the back (`v[len(v)+i]`), `none` for an
out-of-range index (`IndexError`). -/
def py_index (v : JVal) (i : Int) : Option JVal :=
  if 0 ≤ i then jget v i.toNat
  else if 0 ≤ (jlen v : Int) + i then jget v ((jlen v : Int) + i).toNat
  else none

/-- The `try: v = values; for i in idx_path: v = v[i]` walk of
`bld2mesh.get_sem_type`: step into the values tree along the index path;
`none` models a caught `IndexError`/`TypeError` (out-of-range index, or
indexing into a non-list). -/
def walk_values : JVal → List Int → Option JVal
  | v, [] => some v
  | .acons hd tl, i :: rest =>
    match py_index (.acons hd tl) i with
    | some x => walk_values x rest
    | none => none
  | .anil, _ :: _ => none
  | .jnull, _ :: _ => none
  | .jint _, _ :: _ => none

/-- Tail of `bld2mesh.get_sem_type` after `sem_idx` has been extracted:
`if isinstance(sem_idx, int) and 0 <= sem_idx < len(surf_defs): return
surf_defs[sem_idx].get("type", "Unknown")`, else the sentinel.  A surface
definition is modelled by its optional `"type"` field. -/
def sem_finish (surf_defs : List (Option String)) : JVal → Except String String
  | .jint n =>
    if 0 ≤ n ∧ n < (surf_defs.length : Int) then
      .ok ((surf_defs.getD n.toNat none).getD "Unknown")
    else .ok "Unknown"
  | _ => .ok "Unknown"

/-- `bld2mesh.get_sem_type` (lines 122-146): resolve the semantic type of the
surface addressed by `path`.  Degrades to `"Unknown"` when `surfaces` is empty,
`values` is `None`, the walk leaves the tree (caught exception), or the
resolved index is not an in-range integer.  NOTE the faithful wart: when the
walked-to value is a list, the source runs `sem_idx = v[0]` OUTSIDE the
`try` block, so an empty list raises an uncaught `IndexError`
(`Except.error`). -/
def get_sem_type (surf_defs : List (Option String)) (values : Option JVal)
    (path : List Int) : Except String String :=
  if surf_defs.isEmpty then .ok "Unknown"
  else
    match values with
    | none => .ok "Unknown"
    | some v0 =>
      match walk_values v0 path with
      | none => .ok "Unknown"
      | some (.anil) => .error "IndexError"
      | some (.acons hd _) => sem_finish surf_defs hd
      | some v => sem_finish surf_defs v

/-- `bld2mesh.triangulate_fan` (lines 242-250): map the ring through
`global_to_local`, drop rings shorter than 3, else emit the fan triangles
`(local_ring[0], local_ring[i], local_ring[i+1])` for `i in range(1, L-1)`. -/
def triangulate_fan (global_to_local : Nat → Nat) (ring_global_indices : List Nat) :
    List (Nat × Nat × Nat) :=
  let local_ring := ring_global_indices.map global_to_local
  if local_ring.length < 3 then []
  else
    (List.range' 1 (local_ring.length - 2)).map
      (fun i => (local_ring.getD 0 0, local_ring.getD i 0, local_ring.getD (i + 1) 0))

/-- One entry of `semantics["values"]` as read by
`merge3d.load_buildings_from_cityjson`: a JSON integer (possibly null) or a
JSON list of integers. -/
inductive SemEntry where
  | sint : Option Int → SemEntry
  | slist : List (Option Int) → SemEntry
deriving Repr, DecidableEq

/-- One geometry record of a building as read by
`merge3d.load_buildings_from_cityjson`; `surfaces` holds each surface dict's
optional `"type"` field and `values` is `semantics.get("values", [])` (a
missing `semantics` or missing `values` both default to `[]`, exactly as in the
source). `boundaries` is surfaces → rings → vertex indices. -/
structure MGeom where
  gtype : String
  boundaries : List (List (List Nat))
  surfaces : List (Option String)
  values : List SemEntry
deriving Repr, DecidableEq

/-- One CityObject: its `"type"` tag and geometry list. -/
structure CityObj where
  ctype : String
  geoms : List MGeom
deriving Repr, DecidableEq

/-- `ground_indices` of `merge3d.load_buildings_from_cityjson` (lines 129-132):
semantic-surface indices whose `"type"` is `"GroundSurface"`. -/
def ground_indices (surfaces : List (Option String)) : List Nat :=
  (List.range surfaces.length).filter
    (fun i => surfaces.getD i none == some "GroundSurface")

/-- Lines 138-143 of `merge3d.py`: `sem_idx = values[surf_idx]` (an uncaught
`IndexError` when `values` is non-empty but too short), unwrapped through
`sem_idx[0]` when it is a list (an uncaught `IndexError` on an empty list);
when `values` is empty/missing the semantic index is `None`. -/
def sem_idx_at (values : List SemEntry) (surf_idx : Nat) : Except String (Option Int) :=
  if values.isEmpty then .ok none
  else
    match values.get? surf_idx with
    | none => .error "IndexError"
    | some (.sint n) => .ok n
    | some (.slist []) => .error "IndexError"
    | some (.slist (x :: _)) => .ok x

/-- Sequence a fallible computation over a list, collecting the results in
order; the first failure aborts (the behaviour of the Python `for` loops, where
an uncaught exception aborts the iteration). -/
def run_all {α β : Type} (f : α → Except String β) : List α → Except String (List β)
  | [] => .ok []
  | a :: l => do
    let b ← f a
    let bs ← run_all f l
    pure (b :: bs)

/-- Sequence a fallible, optionally-contributing computation over a list,
keeping the `some` results in order; the first failure aborts. -/
def run_collect {α β : Type} (f : α → Except String (Option β)) :
    List α → Except String (List β)
  | [] => .ok []
  | a :: l => do
    let b? ← f a
    let bs ← run_collect f l
    match b? with
    | some b => pure (b :: bs)
    | none => pure bs

/-- Contribution of surface `surf_idx` of one MultiSurface geometry to the
ground rings: its rings when its semantic index resolves to a
`GroundSurface` index, nothing otherwise. -/
def surf_ground_rings (g : MGeom) (gidx : List Nat) (surf_idx : Nat) :
    Except String (List (List Nat)) := do
  let si ← sem_idx_at g.values surf_idx
  match si with
  | some n =>
    if gidx.any (fun m => (m : Int) == n) then pure (g.boundaries.getD surf_idx [])
    else pure []
  | none => pure []

/-- Ground rings contributed by one geometry in
`merge3d.load_buildings_from_cityjson`: non-MultiSurface geometries are
skipped, as are geometries whose semantics contain no `GroundSurface`
surface. -/
def geom_ground_rings (g : MGeom) : Except String (List (List Nat)) :=
  if g.gtype ≠ "MultiSurface" then .ok []
  else
    let gidx := ground_indices g.surfaces
    if gidx.isEmpty then .ok []
    else do
      let parts ← run_all (surf_ground_rings g gidx) (List.range g.boundaries.length)
      pure parts.flatten

/-- All ground rings of one building (the `ground_polys` accumulator). -/
def building_ground_rings (geoms : List MGeom) : Except String (List (List Nat)) := do
  let parts ← run_all geom_ground_rings geoms
  pure parts.flatten

/-- `merge3d.load_buildings_from_cityjson` (lines 97-169): one row per
CityObject of type `Building` whose collected ground rings are non-empty;
buildings with no ground ring are skipped silently.  The shapely
`Polygon`/`unary_union` footprint construction is abstracted to the list of
collected ground rings (footprint presence = non-empty ring list). -/
def load_buildings_from_cityjson (cityobjs : List (String × CityObj)) :
    Except String (List (String × List (List Nat))) :=
  run_collect (fun co =>
    if co.2.ctype ≠ "Building" then pure none
    else do
      let rings ← building_ground_rings co.2.geoms
      if rings.isEmpty then pure none
      else pure (some (co.1, rings))) cityobjs

/-- `MAX_BUILDING_DISTANCE = 25` of `merge3d.py` (meters). -/
def MAX_BUILDING_DISTANCE : ℚ := 25

/-- An OSM point feature after reprojection: its DataFrame index and planar
coordinates. -/
structure OsmPoint where
  pid : Nat
  x : ℚ
  y : ℚ
deriving Repr, DecidableEq

/-- A building footprint available for matching, identified by its CityJSON
building id (the polygon itself is abstracted into the distance function). -/
structure Bldg where
  id : String
deriving Repr, DecidableEq

/-- One CityJSON tile: its path (the `groupby` key), the bounding box from
`metadata.geographicalExtent`, and its extracted building footprints. -/
structure Tile where
  path : String
  xmin : ℚ
  ymin : ℚ
  xmax : ℚ
  ymax : ℚ
  bldgs : List Bldg
deriving Repr, DecidableEq

/-- One row of the matched DataFrame: the original point index and the
`bldg_id` / `dist_m` join columns (`none` = NaN). -/
structure Row where
  pidx : Nat
  bldg_id : Option String
  dist_m : Option ℚ
deriving Repr, DecidableEq

/-- An unmatched row for a point (`bldg_id = None`, `dist_m = None`). -/
def null_row (p : OsmPoint) : Row :=
  ⟨p.pid, none, none⟩

/-- The `predicate="within"` test of the tile assignment `sjoin`: the point
lies in the interior of the tile's bounding box. -/
def tile_contains (t : Tile) (p : OsmPoint) : Bool :=
  decide (t.xmin < p.x) && decide (p.x < t.xmax) &&
    decide (t.ymin < p.y) && decide (p.y < t.ymax)

/-- `gpd.sjoin_nearest(group, bldg_gdf, how="left", max_distance=25,
distance_col="dist_m")` restricted to one left row: the nearest footprints to
the point.  When the minimum distance is within `MAX_BUILDING_DISTANCE` every
equidistant nearest building yields one output row (geopandas documents that
equidistant nearest neighbours are all returned), in footprint-list order;
otherwise the left join keeps the point with NaN match columns. -/
def match_point (dist : OsmPoint → Bldg → ℚ) (bldgs : List Bldg) (p : OsmPoint) :
    List Row :=
  match (bldgs.map (fun b => dist p b)).min? with
  | none => [null_row p]
  | some m =>
    if m ≤ MAX_BUILDING_DISTANCE then
      (bldgs.filter (fun b => decide (dist p b = m))).map
        (fun b => ⟨p.pid, some b.id, some m⟩)
    else [null_row p]

/-- Per-tile processing of `merge3d.main` (lines 279-307): a tile with an empty
footprint set yields an all-null chunk; otherwise each point of the tile's
group is matched by `sjoin_nearest`. -/
def tile_rows (dist : OsmPoint → Bldg → ℚ) (t : Tile) (pts : List OsmPoint) :
    List Row :=
  if t.bldgs.isEmpty then pts.map null_row
  else pts.flatMap (match_point dist t.bldgs)

/-- Python string comparison (code-point lexicographic) on char lists. -/
def char_list_le : List Char → List Char → Bool
  | [], _ => true
  | _ :: _, [] => false
  | a :: as, b :: bs =>
    if a.toNat < b.toNat then true
    else if b.toNat < a.toNat then false
    else char_list_le as bs

/-- Python string comparison on strings (used by `groupby` to sort tile-path
keys). -/
def str_le (a b : String) : Bool :=
  char_list_le a.data b.data

/-- Ordered insert for insertion sort with a boolean comparator. -/
def insert_by {α : Type} (le : α → α → Bool) (a : α) : List α → List α
  | [] => [a]
  | b :: l => if le a b then a :: b :: l else b :: insert_by le a l

/-- Insertion sort with a boolean comparator (models the sorted iteration order
of `groupby("path")`). -/
def sort_by {α : Type} (le : α → α → Bool) : List α → List α
  | [] => []
  | a :: l => insert_by le a (sort_by le l)

/-- The concatenated matched DataFrame of `merge3d.main` before `sort_index`:
per-tile chunks in ascending tile-path order (`groupby` sorts its keys), each
chunk holding the rows of the points inside that tile's bounding box in input
order, followed by the rows of points covered by no tile (`no_tile`). -/
def all_rows (dist : OsmPoint → Bldg → ℚ) (pts : List OsmPoint) (tiles : List Tile) :
    List Row :=
  let sorted_tiles := sort_by (fun a b => str_le a.path b.path) tiles
  let chunks := sorted_tiles.flatMap
    (fun t => tile_rows dist t (pts.filter (fun p => tile_contains t p)))
  let no_tile := (pts.filter (fun p => tiles.all (fun t => !tile_contains t p))).map null_row
  chunks ++ no_tile

/-- `matched_all.sort_index()`: stable sort of the rows by point index (rows
with equal index keep their concatenation order). -/
def sort_index (n : Nat) (rows : List Row) : List Row :=
  (List.range n).flatMap (fun i => rows.filter (fun r => r.pidx == i))

/-- The output loop of `merge3d.main` (lines 328-381): `iterrows` visits the
sorted rows in order and writes `<osm_id>.json` / `<osm_id>_bld.json` once per
ROW, so for a point with several rows each write overwrites the previous one
and the last row in sorted order determines the final files.  The final
`LinkedRecord` of point `pid` is therefore the last row carrying that index. -/
def final_record (dist : OsmPoint → Bldg → ℚ) (pts : List OsmPoint)
    (tiles : List Tile) (pid : Nat) : Option Row :=
  ((sort_index pts.length (all_rows dist pts tiles)).filter
    (fun r => r.pidx == pid)).getLast?

/-! ### Lemmas about boundary trees and vertex compaction -/

theorem collect_remap (f : Nat → Nat) (t : BTree) :
    collect_indices (remap_boundaries f t) = (collect_indices t).map f := by
  induction t with
  | leaf n => rfl
  | nil => rfl
  | cons hd tl ih1 ih2 => simp [collect_indices, remap_boundaries, ih1, ih2]

theorem remap_eq_self (f : Nat → Nat) (t : BTree)
    (h : ∀ x ∈ collect_indices t, f x = x) : remap_boundaries f t = t := by
  induction t with
  | leaf n => simp [remap_boundaries, h n (by simp [collect_indices])]
  | nil => rfl
  | cons hd tl ih1 ih2 =>
    simp only [remap_boundaries]
    rw [ih1 (fun x hx => h x (by simp [collect_indices, hx])),
        ih2 (fun x hx => h x (by simp [collect_indices, hx]))]

theorem shape_remap (f : Nat → Nat) (t : BTree) :
    shape_of (remap_boundaries f t) = shape_of t := by
  induction t with
  | leaf n => rfl
  | nil => rfl
  | cons hd tl ih1 ih2 =>
    simp only [shape_of, remap_boundaries] at ih1 ih2 ⊢
    rw [ih1, ih2]

theorem used_sorted_sorted (trees : List BTree) :
    List.Sorted (· ≤ ·) (used_sorted trees) :=
  List.sorted_insertionSort _ _

theorem used_sorted_perm (trees : List BTree) :
    List.Perm (used_sorted trees) (trees.flatMap collect_indices).dedup :=
  List.perm_insertionSort _ _

theorem used_sorted_nodup (trees : List BTree) : (used_sorted trees).Nodup :=
  (used_sorted_perm trees).nodup_iff.2 (List.nodup_dedup _)

theorem mem_used_sorted (trees : List BTree) (n : Nat) :
    n ∈ used_sorted trees ↔ n ∈ trees.flatMap collect_indices :=
  ((used_sorted_perm trees).mem_iff).trans List.mem_dedup

theorem used_sorted_length (trees : List BTree) :
    (used_sorted trees).length = (trees.flatMap collect_indices).dedup.length :=
  (used_sorted_perm trees).length_eq

theorem used_sorted_sorted_lt (trees : List BTree) :
    List.Sorted (· < ·) (used_sorted trees) :=
  (used_sorted_sorted trees).lt_of_le (used_sorted_nodup trees)

theorem compact_eq {V : Type} [Inhabited V] (verts : List V) (trees : List BTree)
    (h : trees.flatMap collect_indices ≠ []) :
    compact verts trees =
      ((used_sorted trees).map (fun i => verts.getD i default),
       trees.map (remap_boundaries (index_map (used_sorted trees)))) := by
  have hne : ((trees.flatMap collect_indices).dedup).isEmpty = false := by
    simp [List.isEmpty_iff, List.dedup_eq_nil, h]
  simp [compact, used_sorted, hne]

theorem compact_empty {V : Type} [Inhabited V] (verts : List V) (trees : List BTree)
    (h : trees.flatMap collect_indices = []) :
    compact verts trees = ([], trees) := by
  have hnil : ∀ t ∈ trees, collect_indices t = [] := List.flatMap_eq_nil_iff.mp h
  have hmap : trees.map (remap_boundaries (index_map [])) = trees := by
    have hid : ∀ t ∈ trees, remap_boundaries (index_map []) t = t := by
      intro t ht
      exact remap_eq_self _ _ (fun x hx => by rw [hnil t ht] at hx; cases hx)
    rw [List.map_congr_left hid]; exact List.map_id' _
  simp [compact, h, hmap]

/-- C2 counterexample: a building whose geometry references no vertex index at
all (here a single empty `boundaries` array).  `merge3d`'s compaction does NOT
fail on the empty collected index set: `make_single_building_cityjson` returns
a normal document with an empty vertex array and the boundaries kept, where the
claim asserts a failure with `EmptyGeometry`. -/
theorem c2_counterexample :
    make_single_building_cityjson ([(42, 43, 44)] : List (Int × Int × Int))
      [("b1", [BTree.nil])] "b1" = some ([], [BTree.nil]) := by decide

/-- C2 (amended): only the mesh-pipeline compaction (`bld2mesh.py`) fails when
the collected index set is empty (with the error "No vertex indices referenced
by polygons."); the single-building extraction of `merge3d.py` instead
succeeds, producing an empty vertex array and leaving every boundaries tree
unchanged. -/
theorem c2_amended :
    (∀ (V : Type) [Inhabited V] (verts : List V) (rings : List (List Nat)),
      used_global_indices rings = [] →
      bld2mesh_compact verts rings = .error "No vertex indices referenced by polygons.")
    ∧ (∀ (V : Type) [Inhabited V] (verts : List V) (trees : List BTree),
      trees.flatMap collect_indices = [] → compact verts trees = ([], trees)) := by
  constructor
  · intro V _ verts rings h
    simp [bld2mesh_compact, h]
  · intro V _ verts trees h
    exact compact_empty verts trees h

/-- Witness for C2 (amended) at concrete empty inputs. -/
theorem c2_amended_witness :
    used_global_indices [[], []] = []
    ∧ bld2mesh_compact ([(1, 2, 3)] : List (Int × Int × Int)) [[], []]
        = .error "No vertex indices referenced by polygons."
    ∧ compact ([(1, 2, 3)] : List (Int × Int × Int)) [BTree.nil] = ([], [BTree.nil]) :=
  ⟨by decide, c2_amended.1 (Int × Int × Int) [(1, 2, 3)] [[], []] (by decide),
   c2_amended.2 (Int × Int × Int) [(1, 2, 3)] [BTree.nil] (by decide)⟩

/-- C4: for a geometry with a non-empty referenced index set (and indices in
range of the vertex array), compaction yields `new_vertices` of length `N` =
number of distinct referenced indices; `new_vertices[i]` is the original row at
the i-th smallest referenced global index (the sorted used-index list is
strictly sorted and carries exactly the referenced indices); every integer leaf
of every remapped tree lies in `[0, N)`; and remapping preserves the nesting
shape of every tree exactly. -/
theorem c4_compact_correct {V : Type} [Inhabited V] (verts : List V) (trees : List BTree)
    (hne : trees.flatMap collect_indices ≠ [])
    (hlt : ∀ i ∈ trees.flatMap collect_indices, i < verts.length) :
    (compact verts trees).1.length = (trees.flatMap collect_indices).dedup.length
    ∧ List.Sorted (· < ·) (used_sorted trees)
    ∧ (∀ n, n ∈ used_sorted trees ↔ n ∈ trees.flatMap collect_indices)
    ∧ (∀ i, i < (compact verts trees).1.length →
        (compact verts trees).1.getD i default
          = verts.getD ((used_sorted trees).getD i 0) default)
    ∧ (∀ t ∈ (compact verts trees).2, ∀ n ∈ collect_indices t,
        n < (compact verts trees).1.length)
    ∧ (compact verts trees).2 = trees.map (remap_boundaries (index_map (used_sorted trees)))
    ∧ (∀ t ∈ trees, shape_of (remap_boundaries (index_map (used_sorted trees)) t)
        = shape_of t) := by
  have hc := compact_eq verts trees hne
  refine ⟨?_, used_sorted_sorted_lt trees, mem_used_sorted trees, ?_, ?_, ?_, ?_⟩
  · rw [hc, List.length_map, used_sorted_length]
  · intro i hi
    rw [hc] at hi ⊢
    simp only [List.length_map] at hi
    rw [List.getD_eq_getElem _ _ (by simpa using hi), List.getElem_map,
        List.getD_eq_getElem _ _ hi]
  · intro t ht n hn
    rw [hc] at ht ⊢
    simp only [List.mem_map] at ht
    obtain ⟨t0, ht0, rfl⟩ := ht
    rw [collect_remap] at hn
    simp only [List.mem_map] at hn
    obtain ⟨x, hx, rfl⟩ := hn
    have hxm : x ∈ used_sorted trees :=
      (mem_used_sorted trees x).2 (List.mem_flatMap.2 ⟨t0, ht0, hx⟩)
    simp only [List.length_map]
    exact List.indexOf_lt_length.2 hxm
  · rw [hc]
  · intro t _
    exact shape_remap _ t

/-- Witness for C4 at a concrete geometry referencing indices 2 and 0. -/
theorem c4_witness :
    ([BTree.cons (BTree.leaf 2) (BTree.cons (BTree.leaf 0) BTree.nil)].flatMap
        collect_indices ≠ [])
    ∧ (∀ i ∈ [BTree.cons (BTree.leaf 2) (BTree.cons (BTree.leaf 0) BTree.nil)].flatMap
        collect_indices, i < ([5, 6, 7] : List Int).length)
    ∧ (compact ([5, 6, 7] : List Int)
        [BTree.cons (BTree.leaf 2) (BTree.cons (BTree.leaf 0) BTree.nil)]).1.length
      = (([BTree.cons (BTree.leaf 2) (BTree.cons (BTree.leaf 0) BTree.nil)].flatMap
          collect_indices).dedup).length :=
  ⟨by decide, by decide,
   (c4_compact_correct ([5, 6, 7] : List Int)
     [BTree.cons (BTree.leaf 2) (BTree.cons (BTree.leaf 0) BTree.nil)]
     (by decide) (by decide)).1⟩

/-- C5: compaction is idempotent.  If the trees are already local to a
compacted vertex array — their integer leaves are exactly `[0, N)` and the
vertex array has exactly `N` rows — then compaction is the identity: the vertex
array and every boundary tree are returned unchanged. -/
theorem c5_compact_idempotent {V : Type} [Inhabited V] (verts : List V)
    (trees : List BTree) (N : Nat) (hlen : verts.length = N)
    (hsub : ∀ n ∈ trees.flatMap collect_indices, n < N)
    (hsup : ∀ n, n < N → n ∈ trees.flatMap collect_indices) :
    compact verts trees = (verts, trees) := by
  rcases Nat.eq_zero_or_pos N with hN | hN
  · subst hN
    have hfl : trees.flatMap collect_indices = [] := by
      cases hE : trees.flatMap collect_indices with
      | nil => rfl
      | cons a l => exact absurd (hsub a (by simp [hE])) (by omega)
    have hv : verts = [] := List.length_eq_zero.mp hlen
    rw [compact_empty verts trees hfl, hv]
  · have hne : trees.flatMap collect_indices ≠ [] :=
      List.ne_nil_of_mem (hsup 0 hN)
    have hrange : used_sorted trees = List.range N := by
      apply List.eq_of_perm_of_sorted ?_ (used_sorted_sorted trees) ?_
      · rw [List.perm_ext_iff_of_nodup (used_sorted_nodup trees) (List.nodup_range N)]
        intro a
        rw [mem_used_sorted, List.mem_range]
        exact ⟨hsub a, hsup a⟩
      · exact (List.pairwise_lt_range N).imp le_of_lt
    have hidx : ∀ x, x < N → index_map (used_sorted trees) x = x := by
      intro x hx
      rw [hrange]
      unfold index_map
      have h1 : x < (List.range N).length := by simpa using hx
      have h2 := List.indexOf_getElem (List.nodup_range N) x h1
      simpa [List.getElem_range] using h2
    have hverts : (used_sorted trees).map (fun i => verts.getD i default) = verts := by
      rw [hrange]
      apply List.ext_getElem
      · simp [hlen]
      · intro i h1 h2
        simp only [List.getElem_map, List.getElem_range]
        exact List.getD_eq_getElem verts default h2
    have htrees : trees.map (remap_boundaries (index_map (used_sorted trees))) = trees := by
      have hid : ∀ t ∈ trees, remap_boundaries (index_map (used_sorted trees)) t = t := by
        intro t ht
        apply remap_eq_self
        intro x hx
        exact hidx x (hsub x (List.mem_flatMap.2 ⟨t, ht, hx⟩))
      rw [List.map_congr_left hid]; exact List.map_id' _
    rw [compact_eq verts trees hne, hverts, htrees]

/-- Witness for C5 at a concrete already-local geometry (leaves exactly
`{0, 1}`, vertex array of length 2). -/
theorem c5_witness :
    compact ([10, 20] : List Int) [BTree.cons (BTree.leaf 0) (BTree.cons (BTree.leaf 1) BTree.nil)]
      = ([10, 20], [BTree.cons (BTree.leaf 0) (BTree.cons (BTree.leaf 1) BTree.nil)]) :=
  c5_compact_idempotent ([10, 20] : List Int)
    [BTree.cons (BTree.leaf 0) (BTree.cons (BTree.leaf 1) BTree.nil)] 2
    rfl (by decide) (by decide)

/-! ### Semantic-type resolution (`bld2mesh.get_sem_type`) -/

/-- C3 (code-bug evaluation): semantic-type resolution is NOT exception-free.
At surfaces `[{"type": "WallSurface"}]`, values `[[]]`, path `(0,)` the walk
succeeds and yields the empty list, and the source then evaluates
`sem_idx = v[0]` OUTSIDE its `try` block, raising an uncaught `IndexError`
instead of returning `"Unknown"`.  The companion conjuncts show the
neighbouring degradation paths do return the sentinel as documented. -/
theorem c3_resolver_raises :
    get_sem_type [some "WallSurface"] (some (JVal.acons JVal.anil JVal.anil)) [0]
      = .error "IndexError"
    ∧ get_sem_type [] (some (JVal.acons JVal.anil JVal.anil)) [0] = .ok "Unknown"
    ∧ get_sem_type [some "WallSurface"] none [0] = .ok "Unknown"
    ∧ get_sem_type [some "WallSurface"] (some (JVal.acons JVal.anil JVal.anil)) [7]
      = .ok "Unknown" := by decide

/-- C8: the resolver at surfaces
`[{"type":"WallSurface"}, {"type":"RoofSurface"}]` and values `[0, 1, 0]`
resolves paths `(0,)`, `(1,)`, `(2,)` to the surface types and the out-of-range
path `(5,)` to `"Unknown"`; in general, walking the values tree to a
single-element group `[n]` unwraps it and returns the type string of surface
`n` whenever `n` is in range. -/
theorem c8_resolver_examples :
    get_sem_type [some "WallSurface", some "RoofSurface"]
      (some (JVal.acons (JVal.jint 0) (JVal.acons (JVal.jint 1)
        (JVal.acons (JVal.jint 0) JVal.anil)))) [0] = .ok "WallSurface"
    ∧ get_sem_type [some "WallSurface", some "RoofSurface"]
      (some (JVal.acons (JVal.jint 0) (JVal.acons (JVal.jint 1)
        (JVal.acons (JVal.jint 0) JVal.anil)))) [1] = .ok "RoofSurface"
    ∧ get_sem_type [some "WallSurface", some "RoofSurface"]
      (some (JVal.acons (JVal.jint 0) (JVal.acons (JVal.jint 1)
        (JVal.acons (JVal.jint 0) JVal.anil)))) [2] = .ok "WallSurface"
    ∧ get_sem_type [some "WallSurface", some "RoofSurface"]
      (some (JVal.acons (JVal.jint 0) (JVal.acons (JVal.jint 1)
        (JVal.acons (JVal.jint 0) JVal.anil)))) [5] = .ok "Unknown"
    ∧ ∀ (sd : List (Option String)) (v : JVal) (p : List Int) (n : Int),
        sd ≠ [] → walk_values v p = some (JVal.acons (JVal.jint n) JVal.anil) →
        0 ≤ n → n < (sd.length : Int) →
        get_sem_type sd (some v) p = .ok ((sd.getD n.toNat none).getD "Unknown") := by
  refine ⟨by decide, by decide, by decide, by decide, ?_⟩
  intro sd v p n hsd hwalk h0 hlt
  have hempty : sd.isEmpty = false := by simp [List.isEmpty_iff, hsd]
  simp only [get_sem_type, hempty, hwalk, Bool.false_eq_true, if_false]
  rw [sem_finish, if_pos ⟨h0, hlt⟩]

/-- Witness for the general unwrap clause of C8 at a concrete
single-element-group value. -/
theorem c8_witness :
    ([some "RoofSurface"] : List (Option String)) ≠ []
    ∧ get_sem_type [some "RoofSurface"] (some (JVal.acons (JVal.jint 0) JVal.anil)) []
        = .ok ((([some "RoofSurface"] : List (Option String)).getD 0 none).getD "Unknown") :=
  ⟨by decide, c8_resolver_examples.2.2.2.2 [some "RoofSurface"]
    (JVal.acons (JVal.jint 0) JVal.anil) [] 0 (by decide) rfl (by decide) (by decide)⟩

/-! ### Fan triangulation (`bld2mesh.triangulate_fan`) -/

/-- C6: a ring of length `< 3` produces no triangles; a ring of length
`L ≥ 3` produces exactly the `L-2` fan triangles
`(ring[0], ring[i], ring[i+1])` for `i` in `[1, L-2]`, in that order; in
particular the ring `[0,1,2,3]` yields exactly `[(0,1,2), (0,2,3)]` and the
ring `[0,1]` yields `[]`. -/
theorem c6_triangulate_fan :
    (∀ (g2l : Nat → Nat) (ring : List Nat), ring.length < 3 →
        triangulate_fan g2l ring = [])
    ∧ (∀ ring : List Nat, 3 ≤ ring.length →
        (triangulate_fan id ring).length = ring.length - 2
        ∧ ∀ i, 1 ≤ i → i ≤ ring.length - 2 →
            (triangulate_fan id ring).getD (i - 1) (0, 0, 0)
              = (ring.getD 0 0, ring.getD i 0, ring.getD (i + 1) 0))
    ∧ triangulate_fan id [0, 1, 2, 3] = [(0, 1, 2), (0, 2, 3)]
    ∧ triangulate_fan id [0, 1] = [] := by
  refine ⟨?_, ?_, by decide, by decide⟩
  · intro g2l ring h
    simp [triangulate_fan, List.length_map, h]
  · intro ring h3
    have hmap : ring.map id = ring := List.map_id ring
    have hlen : ¬ (ring.length < 3) := by omega
    constructor
    · simp [triangulate_fan, hmap, hlen, List.length_range']
    · intro i h1 h2
      have hi : i - 1 < ring.length - 2 := by omega
      simp only [triangulate_fan, hmap, hlen, if_false]
      rw [List.getD_eq_getElem _ _ (by simpa [List.length_range'] using hi)]
      rw [List.getElem_map]
      have harith : 1 + (i - 1) = i := by omega
      simp [List.getElem_range', harith]

/-- Witness for C6 at concrete rings of length 2 and 5. -/
theorem c6_witness :
    triangulate_fan id [7, 8] = []
    ∧ (triangulate_fan id [4, 5, 6, 7, 8]).length = [4, 5, 6, 7, 8].length - 2 :=
  ⟨c6_triangulate_fan.1 id [7, 8] (by decide),
   (c6_triangulate_fan.2.1 [4, 5, 6, 7, 8] (by decide)).1⟩

/-! ### Footprint extraction (`merge3d.load_buildings_from_cityjson`) -/

theorem run_all_nil {α β : Type} (f : α → Except String (List β)) (l : List α)
    (h : ∀ a ∈ l, f a = .ok []) :
    run_all f l = .ok (l.map (fun _ => ([] : List β))) := by
  induction l with
  | nil => rfl
  | cons a as ih =>
    simp [run_all, h a (by simp), ih (fun x hx => h x (by simp [hx])),
      Bind.bind, Except.bind, Pure.pure, Except.pure]

theorem run_collect_none {α β : Type} (f : α → Except String (Option β)) (l : List α)
    (h : ∀ a ∈ l, f a = .ok none) : run_collect f l = .ok [] := by
  induction l with
  | nil => rfl
  | cons a as ih =>
    simp [run_collect, h a (by simp), ih (fun x hx => h x (by simp [hx])),
      Bind.bind, Except.bind, Pure.pure, Except.pure]

/-- C10: in footprint extraction, a MultiSurface geometry whose
`semantics.values` is missing or empty (both default to `[]` in the source)
contributes no GroundSurface rings — every surface's semantic index resolves to
`None` — so a building having only such geometries yields no footprint and is
silently skipped by `load_buildings_from_cityjson` (an `ok` result, not an
error). -/
theorem c10_empty_values_footprint :
    (∀ (values : List SemEntry) (i : Nat), values = [] → sem_idx_at values i = .ok none)
    ∧ (∀ g : MGeom, g.values = [] → geom_ground_rings g = .ok [])
    ∧ (∀ geoms : List MGeom, (∀ g ∈ geoms, g.values = []) →
        building_ground_rings geoms = .ok [])
    ∧ (∀ objs : List (String × CityObj),
        (∀ co ∈ objs, ∀ g ∈ co.2.geoms, g.values = []) →
        load_buildings_from_cityjson objs = .ok []) := by
  have h1 : ∀ (values : List SemEntry) (i : Nat), values = [] →
      sem_idx_at values i = .ok none := by
    intro values i h
    subst h
    rfl
  have h2 : ∀ g : MGeom, g.values = [] → geom_ground_rings g = .ok [] := by
    intro g hg
    have hf : ∀ i ∈ List.range g.boundaries.length,
        surf_ground_rings g (ground_indices g.surfaces) i = .ok [] := by
      intro i _
      simp [surf_ground_rings, h1 g.values i hg, Bind.bind, Except.bind,
        Pure.pure, Except.pure]
    unfold geom_ground_rings
    split_ifs with ht
    · rfl
    · by_cases hgi : (ground_indices g.surfaces).isEmpty
      · simp [hgi]
      · simp only [hgi, Bool.false_eq_true, if_false]
        rw [run_all_nil _ _ hf]
        simp [Bind.bind, Except.bind, Pure.pure, Except.pure]
  have h3 : ∀ geoms : List MGeom, (∀ g ∈ geoms, g.values = []) →
      building_ground_rings geoms = .ok [] := by
    intro geoms hg
    unfold building_ground_rings
    rw [run_all_nil _ _ (fun g hmem => h2 g (hg g hmem))]
    simp [Bind.bind, Except.bind, Pure.pure, Except.pure]
  have h4 : ∀ objs : List (String × CityObj),
      (∀ co ∈ objs, ∀ g ∈ co.2.geoms, g.values = []) →
      load_buildings_from_cityjson objs = .ok [] := by
    intro objs h
    unfold load_buildings_from_cityjson
    apply run_collect_none
    intro co hco
    split_ifs with hb
    · rfl
    · rw [h3 co.2.geoms (h co hco)]
      rfl
  exact ⟨h1, h2, h3, h4⟩

/-- Witness for C10 at a concrete MultiSurface geometry that does declare a
`GroundSurface` surface but has empty `semantics.values`. -/
theorem c10_witness :
    geom_ground_rings ⟨"MultiSurface", [[[0, 1, 2]]], [some "GroundSurface"], []⟩ = .ok []
    ∧ load_buildings_from_cityjson
        [("b", ⟨"Building", [⟨"MultiSurface", [[[0, 1, 2]]], [some "GroundSurface"], []⟩]⟩)]
      = .ok [] :=
  ⟨c10_empty_values_footprint.2.1
      ⟨"MultiSurface", [[[0, 1, 2]]], [some "GroundSurface"], []⟩ rfl,
   c10_empty_values_footprint.2.2.2
      [("b", ⟨"Building", [⟨"MultiSurface", [[[0, 1, 2]]], [some "GroundSurface"], []⟩]⟩)]
      (by decide)⟩

/-! ### Spatial linker (`merge3d.main`) -/

theorem mem_of_getLast_eq {α : Type} (l : List α) (a : α) (h : l.getLast? = some a) :
    a ∈ l := by
  obtain ⟨ys, rfl⟩ := List.getLast?_eq_some_iff.mp h
  simp

theorem match_point_ne_nil (dist : OsmPoint → Bldg → ℚ) (bs : List Bldg) (p : OsmPoint) :
    match_point dist bs p ≠ [] := by
  unfold match_point
  cases hm : (bs.map (fun b => dist p b)).min? with
  | none => simp
  | some m =>
    simp only []
    split_ifs with hle
    · have hmem : m ∈ bs.map (fun b => dist p b) := List.min?_mem min_choice hm
      obtain ⟨b, hb, hbm⟩ := List.mem_map.1 hmem
      have hbf : b ∈ bs.filter (fun b => decide (dist p b = m)) :=
        List.mem_filter.2 ⟨hb, by simp [hbm]⟩
      exact List.ne_nil_of_mem (List.mem_map_of_mem _ hbf)
    · simp

theorem match_point_shape (dist : OsmPoint → Bldg → ℚ) (bs : List Bldg) (p : OsmPoint) :
    ∀ r ∈ match_point dist bs p, r.pidx = p.pid ∧ (r.bldg_id = none → r = null_row p) := by
  intro r hr
  unfold match_point at hr
  cases hm : (bs.map (fun b => dist p b)).min? with
  | none =>
    simp only [hm] at hr
    simp at hr
    subst hr
    exact ⟨rfl, fun _ => rfl⟩
  | some m =>
    simp only [hm] at hr
    split_ifs at hr with hle
    · obtain ⟨b, hb, rfl⟩ := List.mem_map.1 hr
      exact ⟨rfl, fun h => by simp at h⟩
    · simp at hr
      subst hr
      exact ⟨rfl, fun _ => rfl⟩

theorem tile_rows_shape (dist : OsmPoint → Bldg → ℚ) (t : Tile) (pts : List OsmPoint) :
    ∀ r ∈ tile_rows dist t pts,
      (∃ p ∈ pts, r.pidx = p.pid) ∧ (r.bldg_id = none → r.dist_m = none) := by
  intro r hr
  unfold tile_rows at hr
  split_ifs at hr with he
  · obtain ⟨p, hp, rfl⟩ := List.mem_map.1 hr
    exact ⟨⟨p, hp, rfl⟩, fun _ => rfl⟩
  · obtain ⟨p, hp, hmp⟩ := List.mem_flatMap.1 hr
    obtain ⟨hpidx, hnull⟩ := match_point_shape dist t.bldgs p r hmp
    exact ⟨⟨p, hp, hpidx⟩, fun h => by rw [hnull h]; rfl⟩

theorem tile_rows_exists (dist : OsmPoint → Bldg → ℚ) (t : Tile) (pts : List OsmPoint)
    (p : OsmPoint) (hp : p ∈ pts) :
    ∃ r ∈ tile_rows dist t pts, r.pidx = p.pid := by
  unfold tile_rows
  split_ifs with he
  · exact ⟨null_row p, List.mem_map_of_mem _ hp, rfl⟩
  · obtain ⟨r, hr⟩ := List.exists_mem_of_ne_nil _ (match_point_ne_nil dist t.bldgs p)
    exact ⟨r, List.mem_flatMap.2 ⟨p, hp, hr⟩, (match_point_shape dist t.bldgs p r hr).1⟩

theorem mem_insert_by {α : Type} (le : α → α → Bool) (a x : α) (l : List α) :
    x ∈ insert_by le a l ↔ x ∈ a :: l := by
  induction l with
  | nil => simp [insert_by]
  | cons b bs ih =>
    simp only [insert_by]
    split_ifs with h
    · simp
    · simp only [List.mem_cons, ih, List.mem_cons]
      tauto

theorem mem_sort_by {α : Type} (le : α → α → Bool) (x : α) (l : List α) :
    x ∈ sort_by le l ↔ x ∈ l := by
  induction l with
  | nil => simp [sort_by]
  | cons a as ih =>
    simp only [sort_by, mem_insert_by, List.mem_cons, ih]

theorem all_rows_shape (dist : OsmPoint → Bldg → ℚ) (pts : List OsmPoint)
    (tiles : List Tile) :
    ∀ r ∈ all_rows dist pts tiles, r.bldg_id = none → r.dist_m = none := by
  intro r hr
  unfold all_rows at hr
  rw [List.mem_append] at hr
  cases hr with
  | inl h =>
    obtain ⟨t, _, hrt⟩ := List.mem_flatMap.1 h
    exact (tile_rows_shape dist t _ r hrt).2
  | inr h =>
    obtain ⟨p, _, rfl⟩ := List.mem_map.1 h
    exact fun _ => rfl

theorem all_rows_exists (dist : OsmPoint → Bldg → ℚ) (pts : List OsmPoint)
    (tiles : List Tile) (p : OsmPoint) (hp : p ∈ pts) :
    ∃ r ∈ all_rows dist pts tiles, r.pidx = p.pid := by
  by_cases hc : ∃ t ∈ tiles, tile_contains t p = true
  · obtain ⟨t, ht, hcon⟩ := hc
    have hpf : p ∈ pts.filter (fun q => tile_contains t q) :=
      List.mem_filter.2 ⟨hp, hcon⟩
    obtain ⟨r, hr, hpidx⟩ := tile_rows_exists dist t _ p hpf
    refine ⟨r, ?_, hpidx⟩
    unfold all_rows
    rw [List.mem_append]
    left
    exact List.mem_flatMap.2 ⟨t, (mem_sort_by _ t tiles).2 ht, hr⟩
  · push_neg at hc
    have hfp : p ∈ pts.filter (fun q => tiles.all (fun t => !tile_contains t q)) := by
      refine List.mem_filter.2 ⟨hp, ?_⟩
      rw [List.all_eq_true]
      intro t ht
      have := hc t ht
      simp only [Bool.not_eq_true] at this
      simp [this]
    refine ⟨null_row p, ?_, rfl⟩
    unfold all_rows
    rw [List.mem_append]
    right
    exact List.mem_map_of_mem _ hfp

theorem flatMap_single {α β : Type} (l : List α) (g : α → List β) (i : α)
    (hnd : l.Nodup) (hi : i ∈ l) (hz : ∀ j ∈ l, j ≠ i → g j = []) :
    l.flatMap g = g i := by
  induction l with
  | nil => cases hi
  | cons a as ih =>
    rw [List.flatMap_cons]
    rcases List.mem_cons.1 hi with rfl | hmem
    · have hrest : as.flatMap g = [] := by
        apply List.flatMap_eq_nil_iff.mpr
        intro x hx
        exact hz x (by simp [hx]) (fun he => (List.nodup_cons.1 hnd).1 (he ▸ hx))
      rw [hrest, List.append_nil]
    · have ha : g a = [] :=
        hz a (by simp) (fun he => (List.nodup_cons.1 hnd).1 (he ▸ hmem))
      rw [ha, List.nil_append]
      exact ih (List.nodup_cons.1 hnd).2 hmem (fun j hj hne => hz j (by simp [hj]) hne)

theorem filter_sort_index (n : Nat) (rows : List Row) (i : Nat) (hi : i < n) :
    (sort_index n rows).filter (fun r => r.pidx == i)
      = rows.filter (fun r => r.pidx == i) := by
  unfold sort_index
  rw [List.filter_flatMap]
  have hz : ∀ j ∈ List.range n, j ≠ i →
      (rows.filter (fun r => r.pidx == j)).filter (fun r => r.pidx == i) = [] := by
    intro j hj hne
    apply List.filter_eq_nil_iff.mpr
    intro r hr
    have h2 := (List.mem_filter.1 hr).2
    simp only [beq_iff_eq] at h2 ⊢
    intro h1
    exact hne (by rw [← h2, h1])
  have hsingle := flatMap_single (List.range n)
    (fun j => (rows.filter (fun r => r.pidx == j)).filter (fun r => r.pidx == i)) i
    (List.nodup_range n) (List.mem_range.2 hi) hz
  rw [hsingle]
  apply List.filter_eq_self.2
  intro r hr
  exact (List.mem_filter.1 hr).2

/-- C7: for a point matched against a tile's footprints, the linker computes
the minimum distance over all footprints (the distance function abstracts
shapely's planar distance to polygon boundary/interior) and accepts the match
only if it is at most `MAX_BUILDING_DISTANCE = 25`; every accepted row carries
a nearest building and that minimal distance, and when the minimum exceeds the
threshold the point keeps a single row with `bldg_id = None` and
`dist_m = None` — a valid terminal state, not an error. -/
theorem c7_threshold_accept :
    MAX_BUILDING_DISTANCE = 25
    ∧ ∀ (dist : OsmPoint → Bldg → ℚ) (p : OsmPoint) (bs : List Bldg) (m : ℚ),
      (bs.map (fun b => dist p b)).min? = some m →
      ((m ≤ MAX_BUILDING_DISTANCE →
          match_point dist bs p ≠ []
          ∧ ∀ r ∈ match_point dist bs p,
              r.pidx = p.pid ∧ r.dist_m = some m
              ∧ (∃ b ∈ bs, dist p b = m ∧ r.bldg_id = some b.id)
              ∧ ∀ b ∈ bs, m ≤ dist p b)
      ∧ (MAX_BUILDING_DISTANCE < m → match_point dist bs p = [null_row p])) := by
  refine ⟨rfl, ?_⟩
  intro dist p bs m hmin
  constructor
  · intro hle
    refine ⟨match_point_ne_nil dist bs p, ?_⟩
    intro r hr
    unfold match_point at hr
    simp only [hmin] at hr
    rw [if_pos hle] at hr
    obtain ⟨b, hbf, rfl⟩ := List.mem_map.1 hr
    have hb := List.mem_filter.1 hbf
    have hdm : dist p b = m := by simpa using hb.2
    refine ⟨rfl, rfl, ⟨b, hb.1, hdm, rfl⟩, ?_⟩
    intro b' hb'
    exact (List.le_min?_iff (fun _ _ _ => le_min_iff) hmin).1 le_rfl
      (dist p b') (List.mem_map_of_mem _ hb')
  · intro hlt
    unfold match_point
    simp only [hmin]
    rw [if_neg (not_le.2 hlt)]

/-- Witness for C7: the spec's own example — a point at distance 10 from
building A and 30 from building B is matched to A at distance 10. -/
theorem c7_witness :
    match_point (fun _ b => if b.id = "A" then (10 : ℚ) else 30)
      [⟨"A"⟩, ⟨"B"⟩] ⟨0, 0, 0⟩ ≠ []
    ∧ ∀ r ∈ match_point (fun _ b => if b.id = "A" then (10 : ℚ) else 30)
        [⟨"A"⟩, ⟨"B"⟩] ⟨0, 0, 0⟩,
        r.pidx = 0 ∧ r.dist_m = some 10
        ∧ (∃ b ∈ [(⟨"A"⟩ : Bldg), ⟨"B"⟩],
            (if b.id = "A" then (10 : ℚ) else 30) = 10 ∧ r.bldg_id = some b.id)
        ∧ ∀ b ∈ [(⟨"A"⟩ : Bldg), ⟨"B"⟩], 10 ≤ (if b.id = "A" then (10 : ℚ) else 30) :=
  (c7_threshold_accept.2 (fun _ b => if b.id = "A" then (10 : ℚ) else 30)
    ⟨0, 0, 0⟩ [⟨"A"⟩, ⟨"B"⟩] 10 (by decide)).1 (by decide)

/-- C1 counterexample: a point inside the bounding boxes of tiles "a" and "b";
tile "a" accepts building A at distance 5 (the globally smallest accepted
distance, within the threshold) and tile "b" accepts building B at distance 10,
yet the final record carries (B, 10): the output loop overwrites the point's
files once per row and the last row wins, not the smallest distance. -/
theorem c1_counterexample :
    final_record (fun _ b => if b.id = "A" then (5 : ℚ) else 10) [⟨0, 5, 5⟩]
      [⟨"a", 0, 0, 10, 10, [⟨"A"⟩]⟩, ⟨"b", 0, 0, 10, 10, [⟨"B"⟩]⟩] 0
      = some ⟨0, some "B", some 10⟩
    ∧ match_point (fun _ b => if b.id = "A" then (5 : ℚ) else 10) [⟨"A"⟩] ⟨0, 5, 5⟩
      = [⟨0, some "A", some 5⟩]
    ∧ tile_contains ⟨"a", 0, 0, 10, 10, [⟨"A"⟩]⟩ ⟨0, 5, 5⟩ = true
    ∧ tile_contains ⟨"b", 0, 0, 10, 10, [⟨"B"⟩]⟩ ⟨0, 5, 5⟩ = true
    ∧ (5 : ℚ) < 10 ∧ (5 : ℚ) ≤ MAX_BUILDING_DISTANCE := by decide

/-- C1 (amended): a point in several tiles is matched independently per tile,
but the final record is the LAST row produced for that point (per-tile chunks
in ascending tile-path order, ties in footprint order), not the
smallest-distance accepted match; if no tile yields an accepted match, every
row of the point is null and the final record is
`building_id = null, distance = null`. -/
theorem c1_amended (dist : OsmPoint → Bldg → ℚ) (pts : List OsmPoint)
    (tiles : List Tile) (p : OsmPoint) (hp : p ∈ pts) (hpid : p.pid < pts.length) :
    final_record dist pts tiles p.pid
      = ((all_rows dist pts tiles).filter (fun r => r.pidx == p.pid)).getLast?
    ∧ ((∀ r ∈ all_rows dist pts tiles, r.pidx = p.pid → r.bldg_id = none) →
        final_record dist pts tiles p.pid = some ⟨p.pid, none, none⟩) := by
  have hfilter := filter_sort_index pts.length (all_rows dist pts tiles) p.pid hpid
  constructor
  · unfold final_record
    rw [hfilter]
  · intro hnull
    unfold final_record
    rw [hfilter]
    obtain ⟨r0, hr0, hpidx0⟩ := all_rows_exists dist pts tiles p hp
    have hmem : r0 ∈ (all_rows dist pts tiles).filter (fun r => r.pidx == p.pid) :=
      List.mem_filter.2 ⟨hr0, by simp [hpidx0]⟩
    have hne : (all_rows dist pts tiles).filter (fun r => r.pidx == p.pid) ≠ [] :=
      List.ne_nil_of_mem hmem
    obtain ⟨rl, hrl⟩ : ∃ rl,
        ((all_rows dist pts tiles).filter (fun r => r.pidx == p.pid)).getLast?
          = some rl := by
      cases hl : ((all_rows dist pts tiles).filter
          (fun r => r.pidx == p.pid)).getLast? with
      | none => exact absurd (List.getLast?_eq_none_iff.mp hl) hne
      | some rl => exact ⟨rl, rfl⟩
    rw [hrl]
    have hrlmem := mem_of_getLast_eq _ _ hrl
    have hf := List.mem_filter.1 hrlmem
    have hpidxl : rl.pidx = p.pid := by simpa using hf.2
    have hbnone : rl.bldg_id = none := hnull rl hf.1 hpidxl
    have hdnone : rl.dist_m = none := all_rows_shape dist pts tiles rl hf.1 hbnone
    cases rl with
    | mk a b c =>
      simp only at hpidxl hbnone hdnone
      rw [hpidxl, hbnone, hdnone]

/-- Witness for C1 (amended): a point covered by no tile ends with the null
record. -/
theorem c1_amended_witness :
    final_record (fun _ _ => (0 : ℚ)) [⟨0, 1, 1⟩] [] 0 = some ⟨0, none, none⟩ :=
  (c1_amended (fun _ _ => (0 : ℚ)) [⟨0, 1, 1⟩] [] ⟨0, 1, 1⟩ (by decide)
    (by decide)).2 (by decide)

/-- C9 counterexample: one tile whose footprint list is `[A, B]` (document
order), both at distance exactly 5 from the point.  The claim says the lowest
building id ("A" < "B") wins the tie; the code instead emits one row per tied
building and the final record carries "B", the tied building listed last. -/
theorem c9_counterexample :
    final_record (fun _ _ => (5 : ℚ)) [⟨0, 5, 5⟩]
      [⟨"t", 0, 0, 10, 10, [⟨"A"⟩, ⟨"B"⟩]⟩] 0
      = some ⟨0, some "B", some 5⟩
    ∧ ("A" : String) < "B"
    ∧ (5 : ℚ) ≤ MAX_BUILDING_DISTANCE := by
  refine ⟨by decide, ?_, by decide⟩
  rw [String.lt_iff_toList_lt]
  decide

/-- C9 (amended): on exact accepted distance ties the matcher emits one row per
tied building, in footprint-list (document) order; through the last-write-wins
output loop the point's final record therefore carries the tied building listed
LAST in the tile's footprint list — not the lowest building id. -/
theorem c9_tie_last_listed (dist : OsmPoint → Bldg → ℚ) (p : OsmPoint) (bs : List Bldg)
    (m : ℚ) (hmin : (bs.map (fun b => dist p b)).min? = some m)
    (hle : m ≤ MAX_BUILDING_DISTANCE) :
    match_point dist bs p
      = (bs.filter (fun b => decide (dist p b = m))).map
          (fun b => (⟨p.pid, some b.id, some m⟩ : Row))
    ∧ (match_point dist bs p).getLast?
      = ((bs.filter (fun b => decide (dist p b = m))).getLast?).map
          (fun b => (⟨p.pid, some b.id, some m⟩ : Row))
    ∧ ∀ t : Tile, t.bldgs = bs → tile_contains t p = true → p.pid = 0 →
        final_record dist [p] [t] 0 = (match_point dist bs p).getLast? := by
  have h1 : match_point dist bs p
      = (bs.filter (fun b => decide (dist p b = m))).map
          (fun b => (⟨p.pid, some b.id, some m⟩ : Row)) := by
    unfold match_point
    simp only [hmin]
    rw [if_pos hle]
  have hbsne : bs ≠ [] := by
    intro hb
    subst hb
    simp at hmin
  refine ⟨h1, ?_, ?_⟩
  · rw [h1, List.getLast?_map]
  · intro t hbs hcon hp0
    have hall : all_rows dist [p] [t] = match_point dist bs p := by
      unfold all_rows
      have hfil : ([p].filter (fun q => tile_contains t q)) = [p] := by
        simp [hcon]
      have hnotile : ([p].filter (fun q => [t].all (fun t2 => !tile_contains t2 q))) = [] := by
        simp [hcon]
      have hie : t.bldgs.isEmpty = false := by
        rw [hbs]
        simp [List.isEmpty_iff, hbsne]
      simp only [sort_by, insert_by, List.flatMap_cons, List.flatMap_nil,
        List.append_nil, hfil, hnotile, List.map_nil]
      simp [tile_rows, hie, hbs]
      intro h
      exact absurd h hbsne
    unfold final_record
    rw [filter_sort_index ([p] : List OsmPoint).length (all_rows dist [p] [t]) 0
      (by simp), hall]
    have hfe : (match_point dist bs p).filter (fun r => r.pidx == 0)
        = match_point dist bs p := by
      apply List.filter_eq_self.2
      intro r hr
      have hpx := (match_point_shape dist bs p r hr).1
      simp [hpx, hp0]
    rw [hfe]

/-- Witness for C9 (amended): the tie example run through the whole pipeline —
the final record equals the last row of the tie list. -/
theorem c9_witness :
    final_record (fun _ _ => (5 : ℚ)) [⟨0, 5, 5⟩]
      [⟨"t", 0, 0, 10, 10, [⟨"A"⟩, ⟨"B"⟩]⟩] 0
      = (match_point (fun _ _ => (5 : ℚ)) [⟨"A"⟩, ⟨"B"⟩] ⟨0, 5, 5⟩).getLast? :=
  (c9_tie_last_listed (fun _ _ => (5 : ℚ)) ⟨0, 5, 5⟩ [⟨"A"⟩, ⟨"B"⟩] 5
    (by decide) (by decide)).2.2 ⟨"t", 0, 0, 10, 10, [⟨"A"⟩, ⟨"B"⟩]⟩ rfl
    (by decide) rfl

end OsmCity
